import Mathlib

/-!
Verification of the FM24V10 I2C F-RAM driver (src/src/lib.rs).

The driver is shallowly embedded: bytes are `Nat` values (reduced `% 256`
where the source's `u8` arithmetic can overflow), buffers are `List Nat`,
the I2C bus is abstracted as a trace of issued operations, and every
expression that can panic in Rust (checked subtraction via `||`
short-circuit, slice indexing, `copy_from_slice`) is modelled through
`Option`: a `none` result marks a panic.
-/

namespace Fm24v10Spec

/-- Device Type code for FM24V10 family (4-bit prefix: 1010b).
    `const DEVICE_TYPE_CODE: u8 = 0b1010;` -/
def DEVICE_TYPE_CODE : Nat := 0b1010

/-- `impl From<Address> for u8`: constructs the base 7-bit I2C address part
    `(DEVICE_TYPE_CODE << 3) | (a.1 << 2) | (a.0 << 1)`.
    `a1` is `Address.0` (A1 pin state), `a2` is `Address.1` (A2 pin state).
    Rust `u8` shifts discard bits above bit 7, hence the `% 256`. -/
def addressToU8 (a1 a2 : Nat) : Nat :=
  (((DEVICE_TYPE_CODE <<< 3) % 256) ||| ((a2 <<< 2) % 256) ||| ((a1 <<< 1) % 256)) % 256

/-- `const MEMORY_ADDRESS_BYTES: usize = 2;` -/
def MEMORY_ADDRESS_BYTES : Nat := 2

/-- `const CAPACITY_BYTES: usize = 128 * 1024;` -/
def CAPACITY_BYTES : Nat := 128 * 1024

/-- The non-I2C variants of `enum Error`. The `I2c(E)` variant wraps a
    transport failure; the bus is modelled as always succeeding, so only
    the driver-generated errors appear. -/
inductive DriverError where
  | OutOfBounds
  | BufferTooSmall
deriving DecidableEq, Repr

/-- One operation issued to the I2C bus capability. -/
inductive BusOp where
  /-- `i2c.write(address, payload)` -/
  | write (address : Nat) (payload : List Nat)
  /-- `i2c.write_read(address, payload, bytes)`; `readLen` is `bytes.len()`. -/
  | writeRead (address : Nat) (payload : List Nat) (readLen : Nat)
deriving DecidableEq, Repr

/-- Driver state: `struct Fm24v10 { i2c, base_address, write_buffer }`.
    The bus handle is replaced by the operation trace each call returns. -/
structure Fm24v10 where
  base_address : Nat
  write_buffer : List Nat
deriving DecidableEq, Repr

/-- `Fm24v10::new`: stores `address_pins.into()` and the scratch buffer. -/
def Fm24v10.new (a1 a2 : Nat) (write_buffer : List Nat) : Fm24v10 :=
  { base_address := addressToU8 a1 a2, write_buffer := write_buffer }

/-- `Fm24v10::get_address_for_offset`: bounds-checks the offset then ORs the
    page-select bit (bit 16 of the offset) into the base address. -/
def get_address_for_offset (base_address : Nat) (memory_offset : Nat) :
    Except DriverError Nat :=
  if memory_offset ≥ CAPACITY_BYTES then
    .error .OutOfBounds
  else
    .ok (base_address ||| ((memory_offset >>> 16) &&& 0x01))

/-- Rust `usize` subtraction `a - b`: panics (`none`) on underflow. -/
def checkedSub (a b : Nat) : Option Nat :=
  if b ≤ a then some (a - b) else none

/-- The guard `offset >= CAPACITY_BYTES as u32 || len > (CAPACITY_BYTES - offset as usize)`
    shared by `read` and `write`. `||` short-circuits, so the subtraction is
    only evaluated when `offset < CAPACITY_BYTES`; `none` would be a panic. -/
def boundsExceeded (offset len : Nat) : Option Bool :=
  if offset ≥ CAPACITY_BYTES then some true
  else (checkedSub CAPACITY_BYTES offset).map (fun rem => decide (len > rem))

/-- Rust `buf[i] = v`: panics (`none`) when `i` is out of range. -/
def setAt (buf : List Nat) (i v : Nat) : Option (List Nat) :=
  if i < buf.length then some (buf.set i v) else none

/-- Rust `buf[lo..hi].copy_from_slice(src)`: panics (`none`) when the range
    is invalid for `buf` or `src.length ≠ hi - lo`. -/
def copyFromSlice (buf : List Nat) (lo hi : Nat) (src : List Nat) :
    Option (List Nat) :=
  if lo ≤ hi ∧ hi ≤ buf.length ∧ src.length = hi - lo then
    some (buf.take lo ++ src ++ buf.drop hi)
  else none

/-- Rust `&buf[..n]`: panics (`none`) when `n > buf.length`. -/
def sliceTo (buf : List Nat) (n : Nat) : Option (List Nat) :=
  if n ≤ buf.length then some (buf.take n) else none

deriving instance DecidableEq for Except

/-- Outcome of a driver call: the driver state after the call, the bus
    operations issued, and the returned `Result` (bus always succeeds). -/
structure CallOutcome where
  driver : Fm24v10
  ops : List BusOp
  result : Except DriverError Unit
deriving DecidableEq, Repr

/-- `Fm24v10::read`, embedded. `len` is `bytes.len()` of the caller's output
    buffer; the returned data itself comes from the bus and is not modelled.
    `none` marks a panic. -/
def Fm24v10.read (d : Fm24v10) (offset len : Nat) : Option CallOutcome :=
  if len = 0 then
    some ⟨d, [], .ok ()⟩
  else
    (boundsExceeded offset len).bind fun oob =>
      if oob then some ⟨d, [], .error .OutOfBounds⟩
      else
        match get_address_for_offset d.base_address offset with
        | .error e => some ⟨d, [], .error e⟩
        | .ok address =>
            let mem_addr_payload := [(offset >>> 8) &&& 0xFF, offset &&& 0xFF]
            some ⟨d, [BusOp.writeRead address mem_addr_payload len], .ok ()⟩

/-- `Fm24v10::capacity`. -/
def Fm24v10.capacity (_d : Fm24v10) : Except DriverError Nat :=
  .ok CAPACITY_BYTES

/-- `Fm24v10::write`, embedded. `none` marks a panic. -/
def Fm24v10.write (d : Fm24v10) (offset : Nat) (data : List Nat) :
    Option CallOutcome :=
  if data.length = 0 then
    some ⟨d, [], .ok ()⟩
  else
    (boundsExceeded offset data.length).bind fun oob =>
      if oob then some ⟨d, [], .error .OutOfBounds⟩
      else
        let required_buffer_len := MEMORY_ADDRESS_BYTES + data.length
        if d.write_buffer.length < required_buffer_len then
          some ⟨d, [], .error .BufferTooSmall⟩
        else
          match get_address_for_offset d.base_address offset with
          | .error e => some ⟨d, [], .error e⟩
          | .ok i2c_7bit_address =>
              (setAt d.write_buffer 0 ((offset >>> 8) &&& 0xFF)).bind fun b0 =>
              (setAt b0 1 (offset &&& 0xFF)).bind fun b1 =>
              (copyFromSlice b1 MEMORY_ADDRESS_BYTES required_buffer_len data).bind fun b2 =>
              (sliceTo b2 required_buffer_len).map fun payload =>
                ⟨{ d with write_buffer := b2 },
                 [BusOp.write i2c_7bit_address payload], .ok ()⟩

/-! ### Helper lemmas characterising each branch of `read` and `write` -/

lemma boundsExceeded_eq (offset len : Nat) :
    boundsExceeded offset len =
      some (decide (CAPACITY_BYTES ≤ offset ∨ CAPACITY_BYTES - offset < len)) := by
  unfold boundsExceeded checkedSub
  by_cases h : CAPACITY_BYTES ≤ offset
  · simp [h]
  · have h' : offset ≤ CAPACITY_BYTES := Nat.le_of_lt (Nat.lt_of_not_le h)
    simp [h, h']

lemma get_address_ok (b : Nat) {offset : Nat} (h : offset < CAPACITY_BYTES) :
    get_address_for_offset b offset = .ok (b ||| ((offset >>> 16) &&& 0x01)) := by
  unfold get_address_for_offset
  rw [if_neg (Nat.not_le.mpr h)]

lemma read_zero (d : Fm24v10) (offset : Nat) :
    d.read offset 0 = some ⟨d, [], .ok ()⟩ := by
  simp [Fm24v10.read]

lemma read_oob (d : Fm24v10) {offset len : Nat} (hlen : len ≠ 0)
    (h : CAPACITY_BYTES ≤ offset ∨ CAPACITY_BYTES - offset < len) :
    d.read offset len = some ⟨d, [], .error .OutOfBounds⟩ := by
  unfold Fm24v10.read
  rw [boundsExceeded_eq]
  simp [hlen, h]

lemma read_spec (d : Fm24v10) {offset len : Nat} (hlen : len ≠ 0)
    (hbound : offset + len ≤ CAPACITY_BYTES) :
    d.read offset len = some ⟨d,
      [BusOp.writeRead (d.base_address ||| ((offset >>> 16) &&& 0x01))
        [(offset >>> 8) &&& 0xFF, offset &&& 0xFF] len], .ok ()⟩ := by
  have hoff : offset < CAPACITY_BYTES := by omega
  have hno : ¬ (CAPACITY_BYTES ≤ offset ∨ CAPACITY_BYTES - offset < len) := by omega
  unfold Fm24v10.read
  rw [boundsExceeded_eq, get_address_ok _ hoff]
  simp [hlen, hno]

lemma write_zero (d : Fm24v10) (offset : Nat) :
    d.write offset [] = some ⟨d, [], .ok ()⟩ := by
  simp [Fm24v10.write]

lemma write_oob (d : Fm24v10) {offset : Nat} {data : List Nat} (hdata : data ≠ [])
    (h : CAPACITY_BYTES ≤ offset ∨ CAPACITY_BYTES - offset < data.length) :
    d.write offset data = some ⟨d, [], .error .OutOfBounds⟩ := by
  unfold Fm24v10.write
  rw [boundsExceeded_eq]
  simp [List.length_eq_zero, hdata, h]

lemma write_too_small (d : Fm24v10) {offset : Nat} {data : List Nat} (hdata : data ≠ [])
    (hno : ¬ (CAPACITY_BYTES ≤ offset ∨ CAPACITY_BYTES - offset < data.length))
    (hbuf : d.write_buffer.length < MEMORY_ADDRESS_BYTES + data.length) :
    d.write offset data = some ⟨d, [], .error .BufferTooSmall⟩ := by
  unfold Fm24v10.write
  rw [boundsExceeded_eq]
  simp [List.length_eq_zero, hdata, hno, hbuf]

lemma setAt_cons_zero (x : Nat) (l : List Nat) (v : Nat) :
    setAt (x :: l) 0 v = some (v :: l) := by
  simp [setAt]

lemma setAt_cons_one (x y : Nat) (l : List Nat) (v : Nat) :
    setAt (x :: y :: l) 1 v = some (x :: v :: l) := by
  simp [setAt]

lemma copyFromSlice_spec (x y : Nat) (rest data : List Nat)
    (h : data.length ≤ rest.length) :
    copyFromSlice (x :: y :: rest) 2 (2 + data.length) data =
      some (x :: y :: (data ++ rest.drop data.length)) := by
  unfold copyFromSlice
  rw [if_pos]
  · have hdrop : (x :: y :: rest).drop (2 + data.length) = rest.drop data.length := by
      have : 2 + data.length = data.length + 1 + 1 := by omega
      rw [this]
      simp [List.drop_succ_cons]
    rw [hdrop]
    rfl
  · refine ⟨by omega, ?_, by omega⟩
    simp
    omega

lemma sliceTo_spec (x y : Nat) (data tail : List Nat) :
    sliceTo (x :: y :: (data ++ tail)) (2 + data.length) = some (x :: y :: data) := by
  unfold sliceTo
  rw [if_pos]
  · have : 2 + data.length = data.length + 1 + 1 := by omega
    rw [this]
    simp [List.take_succ_cons, List.take_left' rfl]
  · simp
    omega

lemma write_spec (d : Fm24v10) {offset : Nat} {data : List Nat} (hdata : data ≠ [])
    (hbound : offset + data.length ≤ CAPACITY_BYTES)
    (hbuf : MEMORY_ADDRESS_BYTES + data.length ≤ d.write_buffer.length) :
    d.write offset data = some ⟨
      { d with write_buffer :=
          ((offset >>> 8) &&& 0xFF) :: (offset &&& 0xFF) ::
            (data ++ d.write_buffer.drop (MEMORY_ADDRESS_BYTES + data.length)) },
      [BusOp.write (d.base_address ||| ((offset >>> 16) &&& 0x01))
        (((offset >>> 8) &&& 0xFF) :: (offset &&& 0xFF) :: data)], .ok ()⟩ := by
  have hpos : 0 < data.length := List.length_pos.mpr hdata
  have hoff : offset < CAPACITY_BYTES := by omega
  have hno : ¬ (CAPACITY_BYTES ≤ offset ∨ CAPACITY_BYTES - offset < data.length) := by
    omega
  cases hB : d.write_buffer with
  | nil =>
      rw [hB] at hbuf
      simp [MEMORY_ADDRESS_BYTES] at hbuf
  | cons a t =>
    cases t with
    | nil =>
        rw [hB] at hbuf
        simp [MEMORY_ADDRESS_BYTES] at hbuf
        omega
    | cons b rest =>
      have hrest : data.length ≤ rest.length := by
        rw [hB] at hbuf
        simp [MEMORY_ADDRESS_BYTES] at hbuf
        omega
      have hnot : ¬ ((a :: b :: rest).length < MEMORY_ADDRESS_BYTES + data.length) := by
        rw [hB] at hbuf
        omega
      have hdrop : (a :: b :: rest).drop (MEMORY_ADDRESS_BYTES + data.length) =
          rest.drop data.length := by
        rw [show MEMORY_ADDRESS_BYTES + data.length = data.length + 1 + 1 by
          simp [MEMORY_ADDRESS_BYTES]; omega]
        simp [List.drop_succ_cons]
      unfold Fm24v10.write
      rw [boundsExceeded_eq]
      simp only [MEMORY_ADDRESS_BYTES] at hnot hdrop ⊢
      simp [hB, List.length_eq_zero, hdata, hno, hnot, hdrop,
        get_address_ok _ hoff, setAt_cons_zero, setAt_cons_one,
        copyFromSlice_spec _ _ _ _ hrest, sliceTo_spec]
      omega

/-! ### Arithmetic identities for the payload bytes and the page-select bit -/

lemma and255_eq_mod (n : Nat) : n &&& 0xFF = n % 256 := by
  rw [show (0xFF : Nat) = 2 ^ 8 - 1 by norm_num, show (256 : Nat) = 2 ^ 8 by norm_num]
  exact Nat.and_pow_two_sub_one_eq_mod n 8

lemma hiByte_eq (offset : Nat) : (offset >>> 8) &&& 0xFF = offset % 65536 / 256 := by
  have h1 : offset >>> 8 = offset / 256 := by
    rw [Nat.shiftRight_eq_div_pow]
  rw [h1, and255_eq_mod, show (65536 : Nat) = 256 * 256 by norm_num,
    Nat.mod_mul_right_div_self]

lemma loByte_eq (offset : Nat) : offset &&& 0xFF = offset % 65536 % 256 := by
  rw [and255_eq_mod, Nat.mod_mod_of_dvd offset (by norm_num : (256:Nat) ∣ 65536)]

lemma shiftRight16_eq (offset : Nat) : offset >>> 16 = offset / 65536 := by
  rw [Nat.shiftRight_eq_div_pow]

lemma page_bit_lo {offset : Nat} (h : offset < 65536) :
    (offset >>> 16) &&& 0x01 = 0 := by
  rw [shiftRight16_eq, Nat.div_eq_of_lt h]
  decide

lemma page_bit_hi {offset : Nat} (h1 : 65536 ≤ offset) (h2 : offset < 131072) :
    (offset >>> 16) &&& 0x01 = 1 := by
  rw [shiftRight16_eq, show offset / 65536 = 1 by omega]
  decide

lemma testBit_one_pos {i : Nat} (h : 0 < i) : Nat.testBit 1 i = false := by
  cases i with
  | zero => omega
  | succ j =>
      rw [Nat.testBit_succ]
      simp

lemma CAPACITY_BYTES_eq : CAPACITY_BYTES = 131072 := rfl

/-! ### The claims -/

/-- C1: every in-bounds `write` with non-empty data and a large-enough scratch
    buffer issues exactly one bus write, addressed by the address codec, whose
    payload is the big-endian encoding of the offset's low 16 bits followed by
    the data bytes verbatim, and returns success. -/
theorem C1_write_frame (d : Fm24v10) (offset : Nat) (data : List Nat)
    (hdata : data ≠ []) (hbound : offset + data.length ≤ 131072)
    (hbuf : 2 + data.length ≤ d.write_buffer.length) :
    get_address_for_offset d.base_address offset =
      .ok (d.base_address ||| ((offset >>> 16) &&& 0x01)) ∧
    (d.write offset data).map CallOutcome.ops =
      some [BusOp.write (d.base_address ||| ((offset >>> 16) &&& 0x01))
        ((offset % 65536 / 256) :: (offset % 65536 % 256) :: data)] ∧
    (d.write offset data).map CallOutcome.result = some (.ok ()) := by
  have hpos : 0 < data.length := List.length_pos.mpr hdata
  have hbound' : offset + data.length ≤ CAPACITY_BYTES := by
    simp only [CAPACITY_BYTES_eq]
    omega
  have hbuf' : MEMORY_ADDRESS_BYTES + data.length ≤ d.write_buffer.length := by
    simp only [MEMORY_ADDRESS_BYTES]
    omega
  refine ⟨get_address_ok _ (by simp only [CAPACITY_BYTES_eq]; omega), ?_, ?_⟩
  · rw [write_spec d hdata hbound' hbuf', hiByte_eq offset, loByte_eq offset]
    rfl
  · rw [write_spec d hdata hbound' hbuf']
    rfl

theorem C1_write_frame_witness :
    get_address_for_offset (Fm24v10.new 0 0 [0, 0, 0, 0]).base_address 0x0102 =
      .ok ((Fm24v10.new 0 0 [0, 0, 0, 0]).base_address ||| ((0x0102 >>> 16) &&& 0x01)) ∧
    ((Fm24v10.new 0 0 [0, 0, 0, 0]).write 0x0102 [0xAA, 0xBB]).map CallOutcome.ops =
      some [BusOp.write ((Fm24v10.new 0 0 [0, 0, 0, 0]).base_address ||| ((0x0102 >>> 16) &&& 0x01))
        ((0x0102 % 65536 / 256) :: (0x0102 % 65536 % 256) :: [0xAA, 0xBB])] ∧
    ((Fm24v10.new 0 0 [0, 0, 0, 0]).write 0x0102 [0xAA, 0xBB]).map CallOutcome.result =
      some (.ok ()) :=
  C1_write_frame (Fm24v10.new 0 0 [0, 0, 0, 0]) 0x0102 [0xAA, 0xBB]
    (by decide) (by decide) (by decide)

/-- C4: with an empty output buffer / empty data, `read` and `write` succeed
    immediately for every offset (even far out of bounds), issue no bus
    operation and leave the driver untouched: the empty-length short-circuit
    runs before the bounds check. -/
theorem C4_zero_length_noop (d : Fm24v10) (offset : Nat) :
    d.read offset 0 = some ⟨d, [], .ok ()⟩ ∧
    d.write offset [] = some ⟨d, [], .ok ()⟩ :=
  ⟨read_zero d offset, write_zero d offset⟩

/-- C5: an in-bounds `write` with non-empty data whose scratch buffer is
    shorter than `2 + data.length` fails with `BufferTooSmall`, issues no bus
    operation and leaves the scratch buffer byte-for-byte unchanged. -/
theorem C5_buffer_too_small (d : Fm24v10) (offset : Nat) (data : List Nat)
    (hdata : data ≠ []) (hbound : offset + data.length ≤ 131072)
    (hbuf : d.write_buffer.length < 2 + data.length) :
    d.write offset data = some ⟨d, [], .error .BufferTooSmall⟩ := by
  have hpos : 0 < data.length := List.length_pos.mpr hdata
  refine write_too_small d hdata ?_ ?_
  · simp only [CAPACITY_BYTES_eq]
    omega
  · simp only [MEMORY_ADDRESS_BYTES]
    omega

theorem C5_buffer_too_small_witness :
    (Fm24v10.new 0 0 [0, 0]).write 0 [1] =
      some ⟨Fm24v10.new 0 0 [0, 0], [], .error .BufferTooSmall⟩ :=
  C5_buffer_too_small (Fm24v10.new 0 0 [0, 0]) 0 [1]
    (by decide) (by decide) (by decide)

/-- C6: every in-bounds `read` with a non-empty output buffer issues exactly
    one combined write-then-read to the computed slave address, whose write
    payload is the 2-byte big-endian encoding of `offset mod 65536` and whose
    read length is exactly the requested length. -/
theorem C6_read_frame (d : Fm24v10) (offset len : Nat)
    (hlen : len ≠ 0) (hbound : offset + len ≤ 131072) :
    d.read offset len = some ⟨d,
      [BusOp.writeRead (d.base_address ||| ((offset >>> 16) &&& 0x01))
        [offset % 65536 / 256, offset % 65536 % 256] len], .ok ()⟩ := by
  rw [read_spec d hlen (by simp only [CAPACITY_BYTES_eq]; omega),
    hiByte_eq offset, loByte_eq offset]

theorem C6_read_frame_witness :
    (Fm24v10.new 0 0 []).read 0x00FF 3 = some ⟨Fm24v10.new 0 0 [],
      [BusOp.writeRead ((Fm24v10.new 0 0 []).base_address ||| ((0x00FF >>> 16) &&& 0x01))
        [0x00FF % 65536 / 256, 0x00FF % 65536 % 256] 3], .ok ()⟩ :=
  C6_read_frame (Fm24v10.new 0 0 []) 0x00FF 3 (by decide) (by decide)

/-- C2: the base 7-bit slave address has bit layout `1010 : A2 : A1 : 0`
    (80, 82, 84, 86 for the four pin settings); the per-transfer address
    equals the base address for offsets below 65536 and `base ||| 1` for
    offsets in [65536, 131072), touching no bit other than bit 0. -/
theorem C2_address_codec (a1 a2 offset i : Nat) (hoff : offset < 131072)
    (hi : 0 < i) :
    (addressToU8 0 0 = 0b1010000 ∧ addressToU8 1 0 = 0b1010010 ∧
     addressToU8 0 1 = 0b1010100 ∧ addressToU8 1 1 = 0b1010110) ∧
    get_address_for_offset (addressToU8 a1 a2) offset =
      .ok (if offset < 65536 then addressToU8 a1 a2 else addressToU8 a1 a2 ||| 1) ∧
    (addressToU8 a1 a2 ||| 1).testBit i = (addressToU8 a1 a2).testBit i := by
  refine ⟨by decide, ?_, ?_⟩
  · rw [get_address_ok _ (by simp only [CAPACITY_BYTES_eq]; omega)]
    by_cases h : offset < 65536
    · rw [if_pos h, page_bit_lo h, Nat.or_zero]
    · rw [if_neg h, page_bit_hi (by omega) hoff]
  · rw [Nat.testBit_or, testBit_one_pos hi, Bool.or_false]

theorem C2_address_codec_witness :
    70000 < 131072 ∧ 0 < 3 ∧
    ((addressToU8 0 0 = 0b1010000 ∧ addressToU8 1 0 = 0b1010010 ∧
      addressToU8 0 1 = 0b1010100 ∧ addressToU8 1 1 = 0b1010110) ∧
     get_address_for_offset (addressToU8 1 1) 70000 =
       .ok (if 70000 < 65536 then addressToU8 1 1 else addressToU8 1 1 ||| 1) ∧
     (addressToU8 1 1 ||| 1).testBit 3 = (addressToU8 1 1).testBit 3) :=
  ⟨by decide, by decide, C2_address_codec 1 1 70000 3 (by decide) (by decide)⟩

/-- C3: for non-empty accesses, `read` and `write` return `OutOfBounds`
    exactly when `offset ≥ 131072` or the length exceeds `131072 - offset`. -/
theorem C3_bounds (d : Fm24v10) (offset len : Nat) (data : List Nat)
    (hlen : len ≠ 0) (hdata : data ≠ []) :
    ((d.read offset len).map CallOutcome.result = some (.error .OutOfBounds) ↔
      (131072 ≤ offset ∨ 131072 - offset < len)) ∧
    ((d.write offset data).map CallOutcome.result = some (.error .OutOfBounds) ↔
      (131072 ≤ offset ∨ 131072 - offset < data.length)) := by
  have hpos : 0 < data.length := List.length_pos.mpr hdata
  constructor
  · by_cases h : CAPACITY_BYTES ≤ offset ∨ CAPACITY_BYTES - offset < len
    · rw [read_oob d hlen h]
      simp only [Option.map_some', CAPACITY_BYTES_eq] at h ⊢
      exact ⟨fun _ => h, fun _ => trivial⟩
    · have hb : offset + len ≤ CAPACITY_BYTES := by omega
      rw [read_spec d hlen hb]
      simp only [Option.map_some', CAPACITY_BYTES_eq] at h ⊢
      exact ⟨fun hc => absurd hc (by simp), fun hc => absurd hc h⟩
  · by_cases h : CAPACITY_BYTES ≤ offset ∨ CAPACITY_BYTES - offset < data.length
    · rw [write_oob d hdata h]
      simp only [Option.map_some', CAPACITY_BYTES_eq] at h ⊢
      exact ⟨fun _ => h, fun _ => trivial⟩
    · have hb : offset + data.length ≤ CAPACITY_BYTES := by omega
      by_cases hsmall : d.write_buffer.length < MEMORY_ADDRESS_BYTES + data.length
      · rw [write_too_small d hdata h hsmall]
        simp only [Option.map_some', CAPACITY_BYTES_eq] at h ⊢
        exact ⟨fun hc => absurd hc (by simp), fun hc => absurd hc h⟩
      · have hbuf : MEMORY_ADDRESS_BYTES + data.length ≤ d.write_buffer.length := by
          omega
        rw [write_spec d hdata hb hbuf]
        simp only [Option.map_some', CAPACITY_BYTES_eq] at h ⊢
        exact ⟨fun hc => absurd hc (by simp), fun hc => absurd hc h⟩

theorem C3_bounds_witness :
    (1 ≠ 0) ∧ ([1, 2] ≠ ([] : List Nat)) ∧
    ((((Fm24v10.new 0 0 [0, 0, 0, 0]).read 131071 1).map CallOutcome.result =
        some (.error .OutOfBounds) ↔
      (131072 ≤ 131071 ∨ 131072 - 131071 < 1)) ∧
     (((Fm24v10.new 0 0 [0, 0, 0, 0]).write 131071 [1, 2]).map CallOutcome.result =
        some (.error .OutOfBounds) ↔
      (131072 ≤ 131071 ∨ 131072 - 131071 < [1, 2].length))) :=
  ⟨by decide, by decide, C3_bounds (Fm24v10.new 0 0 [0, 0, 0, 0]) 131071 1 [1, 2]
    (by decide) (by decide)⟩

/-- C7: a successful non-empty `write` mutates only the first
    `2 + data.length` scratch-buffer bytes; every byte at an index past that
    is unchanged after the call. -/
theorem C7_scratch_frame (d : Fm24v10) (offset : Nat) (data : List Nat) (i : Nat)
    (hdata : data ≠ []) (hbound : offset + data.length ≤ 131072)
    (hbuf : 2 + data.length ≤ d.write_buffer.length)
    (hpast : 2 + data.length ≤ i) :
    (d.write offset data).map (fun o => o.driver.write_buffer[i]?) =
      some (d.write_buffer[i]?) ∧
    (d.write offset data).map CallOutcome.result = some (.ok ()) := by
  have hpos : 0 < data.length := List.length_pos.mpr hdata
  have hb : offset + data.length ≤ CAPACITY_BYTES := by
    simp only [CAPACITY_BYTES_eq]
    omega
  have hbuf' : MEMORY_ADDRESS_BYTES + data.length ≤ d.write_buffer.length := by
    simp only [MEMORY_ADDRESS_BYTES]
    omega
  refine ⟨?_, by rw [write_spec d hdata hb hbuf']; rfl⟩
  rw [write_spec d hdata hb hbuf']
  simp only [Option.map_some', MEMORY_ADDRESS_BYTES]
  congr 1
  obtain ⟨k, rfl⟩ : ∃ k, i = k + 2 := ⟨i - 2, by omega⟩
  rw [show k + 2 = (k + 1) + 1 from rfl]
  rw [List.getElem?_cons_succ, List.getElem?_cons_succ]
  rw [List.getElem?_append_right (by omega : data.length ≤ k),
    List.getElem?_drop]
  congr 1
  omega

theorem C7_scratch_frame_witness :
    ((Fm24v10.new 0 0 [9, 9, 9, 9]).write 0 [5]).map
        (fun o => o.driver.write_buffer[3]?) =
      some ((Fm24v10.new 0 0 [9, 9, 9, 9]).write_buffer[3]?) ∧
    ((Fm24v10.new 0 0 [9, 9, 9, 9]).write 0 [5]).map CallOutcome.result =
      some (.ok ()) :=
  C7_scratch_frame (Fm24v10.new 0 0 [9, 9, 9, 9]) 0 [5] 3
    (by decide) (by decide) (by decide) (by decide)

/-- C8: the driver never panics: for every offset, length, data and scratch
    buffer, `read` and `write` return a value (the `Option`-modelled panics —
    the `CAPACITY - offset` subtraction, the scratch indexing and
    `copy_from_slice` — never fire under the preceding checks). -/
theorem C8_no_panic (d : Fm24v10) (offset len : Nat) (data : List Nat) :
    (d.read offset len).isSome = true ∧ (d.write offset data).isSome = true := by
  constructor
  · by_cases hlen : len = 0
    · subst hlen
      rw [read_zero]
      rfl
    · by_cases h : CAPACITY_BYTES ≤ offset ∨ CAPACITY_BYTES - offset < len
      · rw [read_oob d hlen h]
        rfl
      · rw [read_spec d hlen (by omega)]
        rfl
  · by_cases hdata : data = []
    · subst hdata
      rw [write_zero]
      rfl
    · have hpos : 0 < data.length := List.length_pos.mpr hdata
      by_cases h : CAPACITY_BYTES ≤ offset ∨ CAPACITY_BYTES - offset < data.length
      · rw [write_oob d hdata h]
        rfl
      · by_cases hsmall : d.write_buffer.length < MEMORY_ADDRESS_BYTES + data.length
        · rw [write_too_small d hdata h hsmall]
          rfl
        · rw [write_spec d hdata (by omega) (by omega)]
          rfl

/-- C9: the assembled frame is a function of the arguments and the pin
    configuration only: two drivers with the same base address issue identical
    bus operations for identical `write` (and `read`) calls, regardless of
    their scratch buffers' prior contents. -/
theorem C9_determinism (d1 d2 : Fm24v10) (offset len : Nat) (data : List Nat)
    (hbase : d1.base_address = d2.base_address)
    (hdata : data ≠ []) (hbound : offset + data.length ≤ 131072)
    (hbuf1 : 2 + data.length ≤ d1.write_buffer.length)
    (hbuf2 : 2 + data.length ≤ d2.write_buffer.length) :
    (d1.write offset data).map CallOutcome.ops =
      (d2.write offset data).map CallOutcome.ops ∧
    (d1.read offset len).map CallOutcome.ops =
      (d2.read offset len).map CallOutcome.ops := by
  have hpos : 0 < data.length := List.length_pos.mpr hdata
  have hb : offset + data.length ≤ CAPACITY_BYTES := by
    simp only [CAPACITY_BYTES_eq]
    omega
  constructor
  · rw [write_spec d1 hdata hb (by simp only [MEMORY_ADDRESS_BYTES]; omega),
      write_spec d2 hdata hb (by simp only [MEMORY_ADDRESS_BYTES]; omega)]
    simp only [Option.map_some', hbase]
  · by_cases hlen : len = 0
    · subst hlen
      rw [read_zero, read_zero]
      rfl
    · by_cases h : CAPACITY_BYTES ≤ offset ∨ CAPACITY_BYTES - offset < len
      · rw [read_oob d1 hlen h, read_oob d2 hlen h]
        rfl
      · rw [read_spec d1 hlen (by omega), read_spec d2 hlen (by omega)]
        simp only [Option.map_some', hbase]

theorem C9_determinism_witness :
    (Fm24v10.new 0 0 [0, 0, 0]).base_address =
      (Fm24v10.new 0 0 [7, 7, 7]).base_address ∧
    (((Fm24v10.new 0 0 [0, 0, 0]).write 1 [5]).map CallOutcome.ops =
      ((Fm24v10.new 0 0 [7, 7, 7]).write 1 [5]).map CallOutcome.ops ∧
     ((Fm24v10.new 0 0 [0, 0, 0]).read 1 2).map CallOutcome.ops =
      ((Fm24v10.new 0 0 [7, 7, 7]).read 1 2).map CallOutcome.ops) :=
  ⟨by decide, C9_determinism (Fm24v10.new 0 0 [0, 0, 0]) (Fm24v10.new 0 0 [7, 7, 7])
    1 2 [5] (by decide) (by decide) (by decide) (by decide) (by decide)⟩

/-- C10: every `read` call, succeeding or failing, leaves the driver (and so
    its scratch `write_buffer`) unchanged; and the base address stored by
    `new` has low bit 0 for every pair of pin values, since every term ORed
    into it is left-shifted by at least one bit. -/
theorem C10_read_pure_and_base_lsb (d : Fm24v10) (offset len a1 a2 : Nat)
    (buf : List Nat) :
    (d.read offset len).map CallOutcome.driver = some d ∧
    (Fm24v10.new a1 a2 buf).base_address.testBit 0 = false := by
  constructor
  · by_cases hlen : len = 0
    · subst hlen
      rw [read_zero]
      rfl
    · by_cases h : CAPACITY_BYTES ≤ offset ∨ CAPACITY_BYTES - offset < len
      · rw [read_oob d hlen h]
        rfl
      · rw [read_spec d hlen (by omega)]
        rfl
  · show (addressToU8 a1 a2).testBit 0 = false
    unfold addressToU8 DEVICE_TYPE_CODE
    rw [show (256 : Nat) = 2 ^ 8 by norm_num]
    simp only [Nat.testBit_mod_two_pow, Nat.testBit_or, Nat.testBit_shiftLeft]
    simp

end Fm24v10Spec
